import Mathlib

/-!
Verification development for the eegviz repository (src/eegviz/eegviz.py).

The embedding models:
 * annotation records and the table built by the module-level table builder
   (a row list plus an explicit column list, since the source seeds the
   accumulation with an explicitly zero-row table carrying the four columns);
 * the recording accessor class: its wrapped raw object (channel names,
   data matrix, time axis, sampling frequency), the derived min/max time,
   and the windowed-data queries;
 * the wrapped library's data getter, whose start/stop sample indices follow
   Python slice semantics (stop is exclusive; a missing stop means
   through the end of the data);
 * the table-query call used by the event getters: the source interpolates
   the event name verbatim into the query expression string
   (description == "NAME"), so the model builds that character string and
   classifies it the way the query engine's tokenizer does — evaluating the
   exact-match filter only when the name forms one clean quoted literal,
   reporting a raise only when the expression certainly ends inside an
   unterminated string literal, and declining to assert anything (an
   explicit unmodelled outcome) for expressions outside that fragment, such
   as escape-bearing literals or quote patterns that form a larger query;
 * the extension dispatch of the file loader, including the relevant
   behaviour of the path-splitting helper from the standard library;
 * the fixed integer-code-to-unit-name table.

Times and signal values are modelled as rationals (exact stand-ins for the
floating-point seconds of the source); the fallible loader returns Except,
and the query-backed getters return a three-valued query outcome.
-/

/-- An annotation record: onset and duration in seconds, a free-text
description, and an optional absolute origin timestamp. -/
structure Annot where
  onset : ℚ
  duration : ℚ
  description : String
  orig_time : Option ℚ
deriving DecidableEq

/-- The annotation table: an ordered row list plus the explicit column list
(the source seeds the accumulation with a zero-row table that already
carries the four named columns). -/
structure EventsDf where
  columns : List String
  rows : List Annot
deriving DecidableEq

/-- Model of eegviz.parse_annotation: seed a zero-row table carrying the four
columns, then append one single-row table per input record, in input order. -/
def parse_annotation (annot : List Annot) : EventsDf :=
  annot.foldl (fun df a => { df with rows := df.rows ++ [a] })
    { columns := ["onset", "duration", "description", "orig_time"], rows := [] }

/-- Model of column access on the table (df["description"]): a key error when
the column is missing, the column values otherwise. -/
def EventsDf.column_description (df : EventsDf) : Option (List String) :=
  if "description" ∈ df.columns then some (df.rows.map (fun a => a.description)) else none

/-- The wrapped raw recording object: channel names, the data matrix
(one row of samples per channel), the time axis, and the sampling rate. -/
structure RawData where
  ch_names : List String
  data : List (List ℚ)
  times : List ℚ
  sfreq : ℚ
deriving DecidableEq

/-- Model of the wrapped library's data getter raw.get_data(picks, start,
stop): select channel rows by name (all channels when picks is none) and
slice the sample axis as data[start:stop] with Python slice semantics —
stop is exclusive, and a missing stop means through the final sample.
When return times is requested, the time axis is sliced the same way. -/
def RawData.get_data (raw : RawData) (picks : Option (List String))
    (start : Nat) (stop : Option Nat) (return_times : Bool) :
    List (List ℚ) × Option (List ℚ) :=
  let stopIdx : Nat := match stop with
    | none => raw.times.length
    | some s => s
  let rows : List (List ℚ) := match picks with
    | none => raw.data
    | some names => ((raw.ch_names.zip raw.data).filter
        (fun p => names.contains p.1)).map (fun p => p.2)
  (rows.map (fun r => (r.drop start).take (stopIdx - start)),
   if return_times then some ((raw.times.drop start).take (stopIdx - start)) else none)

/-- Python max over a nonempty list (as computed at construction for the
recording's maximum time); junk value 0 on the empty list, on which the
source would raise. -/
def listMax : List ℚ → ℚ
  | [] => 0
  | x :: xs => xs.foldl max x

/-- Python min over a nonempty list (the recording's minimum time). -/
def listMin : List ℚ → ℚ
  | [] => 0
  | x :: xs => xs.foldl min x

/-- np.abs on a scalar. -/
def npabs (x : ℚ) : ℚ := if x < 0 then -x else x

/-- Running state of np.argmin over the distances to t: position of the next
element, best value so far, index of the first occurrence of that best. -/
def argminAbsAux (t : ℚ) : List ℚ → Nat → ℚ → Nat → Nat
  | [], _, _, best => best
  | x :: xs, i, bestVal, best =>
      if npabs (x - t) < bestVal then argminAbsAux t xs (i + 1) (npabs (x - t)) i
      else argminAbsAux t xs (i + 1) bestVal best

/-- np.argmin(np.abs(times - t)): index of the element of times closest to t,
first occurrence on ties; junk value 0 on the empty axis. -/
def argminAbs (l : List ℚ) (t : ℚ) : Nat :=
  match l with
  | [] => 0
  | x :: xs => argminAbsAux t xs 1 (npabs (x - t)) 0

/-- The recording accessor: the wrapped raw object and the annotation table
built at construction. -/
structure EvData where
  mneraw : RawData
  events_df : EventsDf
deriving DecidableEq

/-- The times property (the wrapped object's time axis). -/
def EvData.times (d : EvData) : List ℚ := d.mneraw.times

/-- The cached minimum time, min(times), computed at construction. -/
def EvData.tmin (d : EvData) : ℚ := listMin d.mneraw.times

/-- The cached maximum time, max(times), computed at construction. -/
def EvData.tmax (d : EvData) : ℚ := listMax d.mneraw.times

/-- Model of EvData.get_data: with no period, delegate with the default
start 0 and open stop; with period [p1, p2], clamp p1 up to the minimum
time and p2 down to the maximum time, take the nearest sample index to each
clamped bound, and override the stop index to open-ended only when p2
strictly exceeds the maximum time. -/
def EvData.get_data (d : EvData) (period : Option (ℚ × ℚ))
    (picks : Option (List String)) (return_times : Bool) :
    List (List ℚ) × Option (List ℚ) :=
  match period with
  | none => RawData.get_data d.mneraw picks 0 none return_times
  | some p =>
      RawData.get_data d.mneraw picks
        (argminAbs d.mneraw.times (max p.1 (EvData.tmin d)))
        (if p.2 > EvData.tmax d then none
         else some (argminAbs d.mneraw.times (min p.2 (EvData.tmax d))))
        return_times

/-- Outcome of a table-query call: the query evaluates to a row list, the
query engine raises, or the expression falls outside the fragment of the
query language captured by this embedding (the embedding asserts nothing
about the source's behaviour in the last case). -/
inductive QueryOutcome (α : Type) where
  | ok (val : α)
  | raises
  | unmodelled
deriving DecidableEq

/-- Map over a successful query outcome. -/
def QueryOutcome.map {α β : Type} (f : α → β) : QueryOutcome α → QueryOutcome β
  | QueryOutcome.ok v => QueryOutcome.ok (f v)
  | QueryOutcome.raises => QueryOutcome.raises
  | QueryOutcome.unmodelled => QueryOutcome.unmodelled

/-- Verdict of the lexical scan of a query expression string. -/
inductive LexVerdict where
  | valid
  | unterminated
  | ambiguous
deriving DecidableEq

/-- The single-quote character (code 39). -/
def squote : Char := Char.ofNat 39

/-- The backquote character (code 96), which quotes column names in the
query language. -/
def backquote : Char := Char.ofNat 96

/-- The query expression string built by the source's event getters:
'description == "NAME"' with the event name interpolated verbatim. -/
def mkQuery (name : String) : List Char :=
  "description == ".data ++ '"' :: (name.data ++ ['"'])

/-- Do the next two characters both equal a double quote (so that a quote
followed by them would open a triple-quoted literal)? -/
def twoQuotesNext : List Char → Bool
  | c2 :: c3 :: _ => c2 == '"' && c3 == '"'
  | _ => false

/-- Does the character c, followed by the rest of the input, open a
formatted-string literal (prefix f, F, fr, fR, Fr, FR, rf, rF, Rf or RF
directly before a double quote)? -/
def fstringNext (c : Char) (cs : List Char) : Bool :=
  ((c == 'f' || c == 'F') && (match cs with
      | c2 :: _ => c2 == '"'
      | [] => false)) ||
  ((c == 'f' || c == 'F' || c == 'r' || c == 'R') && (match cs with
      | c2 :: c3 :: _ =>
          (c2 == 'f' || c2 == 'F' || c2 == 'r' || c2 == 'R') && c3 == '"'
      | _ => false))

/-- Conservative single-line lexical scan of a query expression, tracking
double-quoted string literals with Python escape semantics: inside a
literal a backslash consumes the following character (so a backslash can
escape the closing quote), a raw newline or the end of the input inside a
literal leaves the literal unterminated, and the tokenizer then rejects
the whole expression. The scan claims unterminated only when the real
tokenizer agrees: whenever it meets a construct that could change how the
quotes pair up — a single-quote or backquote or comment hash outside a
literal, a formatted-string prefix directly before a quote, or a
triple-quote opener — it gives up with ambiguous instead of guessing. -/
def pyScan : List Char → Bool → LexVerdict
  | [], inside => if inside then LexVerdict.unterminated else LexVerdict.valid
  | c :: cs, true =>
      if c = '"' then pyScan cs false
      else if c = '\\' then
        match cs with
        | [] => LexVerdict.unterminated
        | _ :: cs2 => pyScan cs2 true
      else if c = '\n' then LexVerdict.unterminated
      else pyScan cs true
  | c :: cs, false =>
      if c = '"' then
        if twoQuotesNext cs then LexVerdict.ambiguous else pyScan cs true
      else if c = squote ∨ c = '#' ∨ c = backquote then LexVerdict.ambiguous
      else if fstringNext c cs then LexVerdict.ambiguous
      else pyScan cs false

/-- A literal body is clean when it contains no double quote (which would end
the literal early), no backslash (whose escape interpretation is not
modelled), and no line-ending character: for a clean body the tokenizer
reads the quoted text verbatim, with no escape processing. -/
def cleanLiteralBody (body : List Char) : Bool :=
  body.all (fun c => !(c == '"' || c == '\\' || c == '\n' || c == '\r'))

/-- The fixed text the interpolated expression starts with, up to and
including the opening quote of the literal. -/
def queryPre : List Char := "description == ".data ++ ['"']

/-- Model of the table-query call df.query(expr). When the expression is the
fixed comparison text followed by one clean double-quoted literal spanning
the rest of the expression, the query engine evaluates it to the rows
whose description equals the literal verbatim. Otherwise the expression is
lexed: an expression that certainly ends inside an unterminated string
literal makes the query engine raise; anything else (escape-bearing
literals, expressions whose quotes pair into a larger query, constructs
the scan gives up on) is outside the modelled fragment. -/
def dfQuery (rows : List Annot) (expr : List Char) : QueryOutcome (List Annot) :=
  if expr.take queryPre.length = queryPre ∧
      (expr.drop queryPre.length).getLast? = some '"' ∧
      cleanLiteralBody (expr.drop queryPre.length).dropLast = true then
    QueryOutcome.ok (rows.filter
      (fun a => a.description.data == (expr.drop queryPre.length).dropLast))
  else
    match pyScan expr false with
    | LexVerdict.unterminated => QueryOutcome.raises
    | _ => QueryOutcome.unmodelled

/-- Model of EvData.get_event_onset_time: query the annotation table with the
interpolated expression and return the onset column of the result. -/
def EvData.get_event_onset_time (d : EvData) (name : String) :
    QueryOutcome (List ℚ) :=
  (dfQuery d.events_df.rows (mkQuery name)).map (fun rs => rs.map (fun a => a.onset))

/-- Model of EvData.get_event_duration: as above, the duration column. -/
def EvData.get_event_duration (d : EvData) (name : String) :
    QueryOutcome (List ℚ) :=
  (dfQuery d.events_df.rows (mkQuery name)).map (fun rs => rs.map (fun a => a.duration))

/-- Model of EvData.get_event_timestamp: as above, the origin-time column. -/
def EvData.get_event_timestamp (d : EvData) (name : String) :
    QueryOutcome (List (Option ℚ)) :=
  (dfQuery d.events_df.rows (mkQuery name)).map (fun rs => rs.map (fun a => a.orig_time))

/-- Model of EvData.get_data_by_event: fetch the matching onsets and matching
durations (the onset call is made first, so its error propagates first;
an unmodelled query outcome leaves the whole call unmodelled), then for
each onset/duration pair window [onset - pre, onset + duration + post],
clamp to the recording bounds, and run the get_data windowing logic on
that window. -/
def EvData.get_data_by_event (d : EvData) (name : String) (pre post : ℚ)
    (picks : Option (List String)) (return_times : Bool) :
    QueryOutcome (List (List (List ℚ) × Option (List ℚ))) :=
  match d.get_event_onset_time name with
  | QueryOutcome.raises => QueryOutcome.raises
  | QueryOutcome.unmodelled => QueryOutcome.unmodelled
  | QueryOutcome.ok onsets =>
      match d.get_event_duration name with
      | QueryOutcome.raises => QueryOutcome.raises
      | QueryOutcome.unmodelled => QueryOutcome.unmodelled
      | QueryOutcome.ok durations =>
          QueryOutcome.ok ((onsets.zip durations).map (fun od =>
            EvData.get_data d
              (some (max (od.1 - pre) (EvData.tmin d),
                     min (od.1 + od.2 + post) (EvData.tmax d)))
              picks return_times))

/-- The two supported readers of the loader's extension dispatch. -/
inductive Reader
  | brainvision
  | edf
deriving DecidableEq

/-- Extension part of os.path.splitext on the character level: take the
basename (the part after the last path separator), skip its leading dots,
and return the suffix from the last remaining dot (dot included); empty
when no such dot exists. -/
def splitextExt (p : List Char) : List Char :=
  let base := p.foldl (fun acc c => if c = '/' then [] else acc ++ [c]) []
  let rest := base.dropWhile (fun c => c = '.')
  match rest.foldl
      (fun acc c => if c = '.' then some [] else acc.map (fun e => e ++ [c]))
      none with
  | some e => '.' :: e
  | none => []

/-- Model of EvData.__load_from_file: dispatch on the extension of the path —
the BrainVision reader for .vhdr, the EDF reader for .edf, and a value
error naming the extension otherwise. -/
def load_from_file (fname : String) : Except String Reader :=
  let ext := splitextExt fname.data
  if ext = ".vhdr".data then Except.ok Reader.brainvision
  else if ext = ".edf".data then Except.ok Reader.edf
  else Except.error (String.mk ("Unknown file type: ".data ++ ext))

/-- Model of eegviz.unit_fiff_to_human's fixed dictionary, in source order. -/
def fiffUnitTable : List (Int × String) :=
  [(-1, "<No unit>"), (0, "unitless"), (1, "meter"), (2, "kilogram"),
   (3, "second"), (4, "ampere"), (5, "Kelvin"), (6, "mole"), (7, "radian"),
   (8, "steradian"), (9, "candela"), (10, "mol/m^3"), (101, "herz"),
   (102, "Newton"), (103, "pascal"), (104, "joule"), (105, "watt"),
   (106, "coulomb"), (107, "volt"), (108, "farad"), (109, "ohm"),
   (110, "one per ohm"), (111, "weber"), (112, "tesla"), (113, "Henry"),
   (114, "celcius"), (115, "lumen"), (116, "lux"), (117, "V/m^2"),
   (201, "T/m"), (202, "Am"), (203, "Am/m^2"), (204, "Am/m^3")]

/-- Model of eegviz.unit_fiff_to_human: dictionary lookup on the fixed table;
none models the key error raised on an unregistered code. -/
def unit_fiff_to_human (unit : Int) : Option String :=
  fiffUnitTable.lookup unit

/-- Concrete raw recording used as evidence input: one channel, three samples
at times 0, 1, 2 seconds. -/
def exRaw : RawData :=
  { ch_names := ["c1"], data := [[10, 20, 30]], times := [0, 1, 2], sfreq := 1 }

/-- Concrete annotation table: a single event named stim at onset 1 s with
duration 1 s. -/
def exEvents : EventsDf :=
  parse_annotation [{ onset := 1, duration := 1, description := "stim", orig_time := none }]

/-- Concrete recording accessor built from the raw object and the table. -/
def exD : EvData := { mneraw := exRaw, events_df := exEvents }

/-! ## Helper lemmas -/

theorem foldl_rows_append (l : List Annot) (df : EventsDf) :
    (l.foldl (fun df a => { df with rows := df.rows ++ [a] }) df).rows = df.rows ++ l := by
  induction l generalizing df with
  | nil => simp
  | cons a t ih => rw [List.foldl_cons, ih]; simp

theorem foldl_columns_const (l : List Annot) (df : EventsDf) :
    (l.foldl (fun df a => { df with rows := df.rows ++ [a] }) df).columns = df.columns := by
  induction l generalizing df with
  | nil => rfl
  | cons a t ih => rw [List.foldl_cons, ih]

theorem parse_annotation_rows (l : List Annot) : ( parse_annotation l).rows = l := by
  unfold parse_annotation
  rw [foldl_rows_append]
  simp

theorem lookup_none_of_not_mem_keys (l : List (Int × String)) (c : Int)
    (h : c ∉ l.map Prod.fst) : l.lookup c = none := by
  induction l with
  | nil => rfl
  | cons p t ih =>
    simp only [List.map_cons, List.mem_cons] at h
    push_neg at h
    obtain ⟨h1, h2⟩ := h
    cases p with
    | mk k v => simp [List.lookup, beq_eq_false_iff_ne.mpr h1, ih h2]

theorem beq_data_eq (s t : String) : (s.data == t.data) = (s == t) := by
  by_cases h : s = t
  · subst h; simp
  · have hd : s.data ≠ t.data := fun hh => h (String.ext hh)
    simp [h, hd]

theorem cleanLiteralBody_of_not_mem (b : List Char) (h1 : '"' ∉ b) (h2 : '\\' ∉ b)
    (h3 : '\n' ∉ b) (h4 : '\r' ∉ b) : cleanLiteralBody b = true := by
  unfold cleanLiteralBody
  rw [List.all_eq_true]
  intro c hc
  have n1 : c ≠ '"' := fun e => h1 (e ▸ hc)
  have n2 : c ≠ '\\' := fun e => h2 (e ▸ hc)
  have n3 : c ≠ '\n' := fun e => h3 (e ▸ hc)
  have n4 : c ≠ '\r' := fun e => h4 (e ▸ hc)
  simp [n1, n2, n3, n4]

theorem mkQuery_split (name : String) :
    mkQuery name = queryPre ++ (name.data ++ ['"']) := by
  unfold mkQuery queryPre
  simp

theorem dfQuery_mkQuery (rows : List Annot) (name : String) (h1 : '"' ∉ name.data)
    (h2 : '\\' ∉ name.data) (h3 : '\n' ∉ name.data) (h4 : '\r' ∉ name.data) :
    dfQuery rows (mkQuery name) =
      QueryOutcome.ok (rows.filter (fun a => a.description == name)) := by
  have hdrop : (mkQuery name).drop queryPre.length = name.data ++ ['"'] := by
    rw [mkQuery_split, List.drop_left]
  have htake : (mkQuery name).take queryPre.length = queryPre := by
    rw [mkQuery_split, List.take_left]
  have hlast : ((mkQuery name).drop queryPre.length).getLast? = some '"' := by
    rw [hdrop]
    exact List.getLast?_concat _
  have hdl : ((mkQuery name).drop queryPre.length).dropLast = name.data := by
    rw [hdrop]
    exact List.dropLast_concat
  have hclean : cleanLiteralBody ((mkQuery name).drop queryPre.length).dropLast = true := by
    rw [hdl]
    exact cleanLiteralBody_of_not_mem name.data h1 h2 h3 h4
  unfold dfQuery
  rw [if_pos ⟨htake, hlast, hclean⟩, hdl]
  congr 1
  exact List.filter_congr (fun a _ => beq_data_eq a.description name)

theorem get_event_cols_ok (d : EvData) (name : String) (h1 : '"' ∉ name.data)
    (h2 : '\\' ∉ name.data) (h3 : '\n' ∉ name.data) (h4 : '\r' ∉ name.data) :
    d.get_event_onset_time name =
      QueryOutcome.ok ((d.events_df.rows.filter (fun a => a.description == name)).map
        (fun a => a.onset)) ∧
    d.get_event_duration name =
      QueryOutcome.ok ((d.events_df.rows.filter (fun a => a.description == name)).map
        (fun a => a.duration)) ∧
    d.get_event_timestamp name =
      QueryOutcome.ok ((d.events_df.rows.filter (fun a => a.description == name)).map
        (fun a => a.orig_time)) := by
  unfold EvData.get_event_onset_time EvData.get_event_duration EvData.get_event_timestamp
  rw [dfQuery_mkQuery _ _ h1 h2 h3 h4]
  exact ⟨rfl, rfl, rfl⟩

theorem npabs_nonneg (x : ℚ) : 0 ≤ npabs x := by
  unfold npabs
  by_cases h : x < 0
  · rw [if_pos h]; linarith
  · rw [if_neg h]; linarith

theorem npabs_zero : npabs 0 = 0 := by
  unfold npabs
  rw [if_neg (lt_irrefl 0)]

theorem argminAbsAux_bestVal_zero (t : ℚ) (xs : List ℚ) :
    ∀ i best : Nat, argminAbsAux t xs i 0 best = best := by
  induction xs with
  | nil => intro i best; rfl
  | cons x l ih =>
    intro i best
    unfold argminAbsAux
    rw [if_neg (not_lt.mpr (npabs_nonneg (x - t)))]
    exact ih _ _

theorem argminAbs_head (x : ℚ) (xs : List ℚ) : argminAbs (x :: xs) x = 0 := by
  show argminAbsAux x xs 1 (npabs (x - x)) 0 = 0
  rw [sub_self, npabs_zero]
  exact argminAbsAux_bestVal_zero x xs 1 0

theorem foldl_min_eq_self (x : ℚ) (xs : List ℚ) (h : ∀ y ∈ xs, x ≤ y) :
    xs.foldl min x = x := by
  induction xs with
  | nil => rfl
  | cons a t ih =>
    have hxa : min x a = x := min_eq_left (h a (by simp))
    rw [List.foldl_cons, hxa]
    exact ih (fun y hy => h y (by simp [hy]))

theorem listMin_of_sorted (x : ℚ) (xs : List ℚ)
    (hs : (x :: xs).Sorted (fun a b => a ≤ b)) : listMin (x :: xs) = x := by
  unfold listMin
  exact foldl_min_eq_self x xs (List.sorted_cons.mp hs).1

/-! ## Claim theorems -/

/-- C1: the claim says that get_data with period [t, max_time] — or any end
time that reaches or exceeds the recording's true maximum — treats the end
index as open-ended so the final sample is included. The code only
open-ends the stop index when the requested end strictly exceeds the
maximum time; at end equal to max_time the stop index is the nearest-match
index, which is exclusive, so the final sample is dropped. Evaluated on a
one-channel recording with times 0, 1, 2 s: period [0, 2] returns two
samples and the time values 0, 1, while the whole recording has three
samples. -/
theorem boundary_truncation :
    EvData.tmax exD = 2 ∧
    EvData.get_data exD none none true = ([[10, 20, 30]], some [0, 1, 2]) ∧
    EvData.get_data exD (some (0, 2)) none true = ([[10, 20]], some [0, 1]) := by
  refine ⟨by decide, by decide, ?_⟩
  norm_num [EvData.get_data, RawData.get_data, EvData.tmin, EvData.tmax, exD, exRaw,
    listMin, listMax, argminAbs, argminAbsAux, npabs]

/-- C2: the claim says get_data(period = None) equals
get_data(period = [min_time, max_time]). On the recording with times
0, 1, 2 s the None call returns all three samples while the full-period
call returns only two, because the stop index stays at the nearest-match
index (exclusive) when the end equals the maximum exactly. -/
theorem full_period_mismatch :
    EvData.get_data exD none none false = ([[10, 20, 30]], none) ∧
    EvData.get_data exD (some (EvData.tmin exD, EvData.tmax exD)) none false =
      ([[10, 20]], none) ∧
    EvData.get_data exD (some (EvData.tmin exD, EvData.tmax exD)) none false ≠
      EvData.get_data exD none none false := by
  have h1 : EvData.get_data exD none none false = ([[10, 20, 30]], none) := by decide
  have h2 : EvData.get_data exD (some (EvData.tmin exD, EvData.tmax exD)) none false =
      ([[10, 20]], none) := by
    norm_num [EvData.get_data, RawData.get_data, EvData.tmin, EvData.tmax, exD, exRaw,
      listMin, listMax, argminAbs, argminAbsAux, npabs]
  exact ⟨h1, h2, by rw [h1, h2]; decide⟩

/-- C3: the table builder produces exactly one row per input record, in input
order, with the record fields preserved; no deduplication, sorting or
validation is applied (the row list is the input list itself). -/
theorem parse_preserves_records (l : List Annot) :
    ( parse_annotation l).rows.length = l.length ∧ ( parse_annotation l).rows = l :=
  ⟨by rw [parse_annotation_rows], parse_annotation_rows l⟩

/-- C4 (amended): for every event name that interpolates into a single clean
quoted literal — no double quote, no backslash, no newline, no carriage
return in the name, so the query literal is the name verbatim with no
escape interpretation — get_data_by_event returns one window per annotation
row whose description equals the name, in table order, the window being
[onset - pre, onset + duration + post] clamped to the recording bounds and
passed to the get_data windowing logic; with no matching row it returns the
empty list. (Names outside this class can make the interpolated query
raise, see the counterexample.) -/
theorem get_data_by_event_spec (d : EvData) (name : String) (pre post : ℚ)
    (picks : Option (List String)) (rt : Bool) (h1 : '"' ∉ name.data)
    (h2 : '\\' ∉ name.data) (h3 : '\n' ∉ name.data) (h4 : '\r' ∉ name.data) :
    d.get_data_by_event name pre post picks rt =
      QueryOutcome.ok ((d.events_df.rows.filter (fun a => a.description == name)).map
        (fun a => EvData.get_data d
          (some (max (a.onset - pre) (EvData.tmin d),
                 min (a.onset + a.duration + post) (EvData.tmax d))) picks rt)) ∧
    ((∀ a ∈ d.events_df.rows, a.description ≠ name) →
      d.get_data_by_event name pre post picks rt = QueryOutcome.ok []) := by
  obtain ⟨ho, hd, _⟩ := get_event_cols_ok d name h1 h2 h3 h4
  have main : d.get_data_by_event name pre post picks rt =
      QueryOutcome.ok ((d.events_df.rows.filter (fun a => a.description == name)).map
        (fun a => EvData.get_data d
          (some (max (a.onset - pre) (EvData.tmin d),
                 min (a.onset + a.duration + post) (EvData.tmax d))) picks rt)) := by
    unfold EvData.get_data_by_event
    rw [ho, hd]
    show QueryOutcome.ok
        ((((d.events_df.rows.filter (fun a => a.description == name)).map
            (fun a => a.onset)).zip
          ((d.events_df.rows.filter (fun a => a.description == name)).map
            (fun a => a.duration))).map
          (fun od => EvData.get_data d
            (some (max (od.1 - pre) (EvData.tmin d),
                   min (od.1 + od.2 + post) (EvData.tmax d))) picks rt)) = _
    rw [List.zip_map', List.map_map]
    rfl
  refine ⟨main, fun hn => ?_⟩
  have hf : d.events_df.rows.filter (fun a => a.description == name) = [] :=
    List.filter_eq_nil_iff.mpr (fun a ha => by simp [hn a ha])
  rw [main, hf]
  rfl

/-- C5: requesting the period [min_time - 100, max_time + 100] returns the
same result as requesting no period at all: the start is clamped up to the
minimum time, whose nearest sample index is 0 on a sorted time axis, and
the end strictly exceeds the maximum time, so the stop index is open-ended
— exactly the defaults of the no-period call. -/
theorem clamp_full_range (d : EvData) (picks : Option (List String)) (rt : Bool)
    (hs : d.mneraw.times.Sorted (fun a b => a ≤ b)) (hne : d.mneraw.times ≠ []) :
    EvData.get_data d (some (EvData.tmin d - 100, EvData.tmax d + 100)) picks rt =
      EvData.get_data d none picks rt := by
  have hmax : max (EvData.tmin d - 100) (EvData.tmin d) = EvData.tmin d :=
    max_eq_right (by linarith)
  have hgt : EvData.tmax d + 100 > EvData.tmax d := by linarith
  have hidx : argminAbs d.mneraw.times (EvData.tmin d) = 0 := by
    obtain ⟨x, xs, hxx⟩ : ∃ x xs, d.mneraw.times = x :: xs := by
      cases hcase : d.mneraw.times with
      | nil => exact absurd hcase hne
      | cons x xs => exact ⟨x, xs, rfl⟩
    have ht : EvData.tmin d = x := by
      unfold EvData.tmin
      rw [hxx]
      exact listMin_of_sorted x xs (hxx ▸ hs)
    rw [hxx, ht]
    exact argminAbs_head x xs
  show RawData.get_data d.mneraw picks
      (argminAbs d.mneraw.times (max (EvData.tmin d - 100) (EvData.tmin d)))
      (if EvData.tmax d + 100 > EvData.tmax d then none
       else some (argminAbs d.mneraw.times (min (EvData.tmax d + 100) (EvData.tmax d))))
      rt =
    RawData.get_data d.mneraw picks 0 none rt
  rw [hmax, hidx, if_pos hgt]

/-- C6 (amended): for every event name that interpolates into a single clean
quoted literal — no double quote, no backslash, no newline, no carriage
return in the name, so the query literal is the name verbatim with no
escape interpretation — the three event getters return exactly the
matching rows' column values, in table order, and an unmatched name yields
the empty list rather than an error. (Names outside this class can make
the interpolated query raise, see the counterexample.) -/
theorem event_getters_match (d : EvData) (name : String) (h1 : '"' ∉ name.data)
    (h2 : '\\' ∉ name.data) (h3 : '\n' ∉ name.data) (h4 : '\r' ∉ name.data) :
    d.get_event_onset_time name =
      QueryOutcome.ok ((d.events_df.rows.filter (fun a => a.description == name)).map
        (fun a => a.onset)) ∧
    d.get_event_duration name =
      QueryOutcome.ok ((d.events_df.rows.filter (fun a => a.description == name)).map
        (fun a => a.duration)) ∧
    d.get_event_timestamp name =
      QueryOutcome.ok ((d.events_df.rows.filter (fun a => a.description == name)).map
        (fun a => a.orig_time)) ∧
    ((∀ a ∈ d.events_df.rows, a.description ≠ name) →
      d.get_event_onset_time name = QueryOutcome.ok [] ∧
      d.get_event_duration name = QueryOutcome.ok [] ∧
      d.get_event_timestamp name = QueryOutcome.ok []) := by
  obtain ⟨ho, hd, ht⟩ := get_event_cols_ok d name h1 h2 h3 h4
  refine ⟨ho, hd, ht, fun hn => ?_⟩
  have hf : d.events_df.rows.filter (fun a => a.description == name) = [] :=
    List.filter_eq_nil_iff.mpr (fun a ha => by simp [hn a ha])
  exact ⟨by rw [ho, hf]; rfl, by rw [hd, hf]; rfl, by rw [ht, hf]; rfl⟩

/-- C7: the unit table maps 107 to volt, 114 to celcius and -1 to the no-unit
marker, and lookup of any code not among the table's keys is a key error
(modelled as none), with no fallback. -/
theorem unit_lookup_spec :
    unit_fiff_to_human 107 = some "volt" ∧
    unit_fiff_to_human 114 = some "celcius" ∧
    unit_fiff_to_human (-1) = some "<No unit>" ∧
    ∀ c : Int, c ∉ fiffUnitTable.map Prod.fst → unit_fiff_to_human c = none :=
  ⟨by decide, by decide, by decide,
   fun c hc => lookup_none_of_not_mem_keys fiffUnitTable c hc⟩

/-- C8: construction dispatches on the file extension: .vhdr loads with the
BrainVision reader, .edf with the EDF reader, and any other extension fails
with a value error whose message names the extension. -/
theorem load_dispatch (fname : String) :
    (splitextExt fname.data = ".vhdr".data →
      load_from_file fname = Except.ok Reader.brainvision) ∧
    (splitextExt fname.data = ".edf".data →
      load_from_file fname = Except.ok Reader.edf) ∧
    (splitextExt fname.data ≠ ".vhdr".data → splitextExt fname.data ≠ ".edf".data →
      load_from_file fname =
        Except.error (String.mk ("Unknown file type: ".data ++ splitextExt fname.data))) := by
  refine ⟨fun h => ?_, fun h => ?_, fun ha hb => ?_⟩
  · simp only [load_from_file]
    rw [if_pos h]
  · simp only [load_from_file]
    rw [h, if_neg (by decide), if_pos rfl]
  · simp only [load_from_file]
    rw [if_neg ha, if_neg hb]

/-- C9: the empty annotation input yields a zero-row table in which the four
columns are still defined, so that accessing the description column of the
empty table returns the empty list instead of a missing-column error. -/
theorem empty_table_columns :
    ( parse_annotation []).rows = [] ∧
    ( parse_annotation []).columns = ["onset", "duration", "description", "orig_time"] ∧
    ( parse_annotation []).column_description = some [] := by
  decide

/-- C10: there exists an event name — here one containing a double-quote
character — for which the three event getters and get_data_by_event raise
instead of returning a list, because the name is spliced verbatim into the
query expression and the resulting expression ends inside an unterminated
string literal. -/
theorem query_injection_error :
    ('"' ∈ ("a\"b" : String).data) ∧
    EvData.get_event_onset_time exD "a\"b" = QueryOutcome.raises ∧
    EvData.get_event_duration exD "a\"b" = QueryOutcome.raises ∧
    EvData.get_event_timestamp exD "a\"b" = QueryOutcome.raises ∧
    EvData.get_data_by_event exD "a\"b" 1 1 none false = QueryOutcome.raises := by
  exact ⟨by decide, by decide, by decide, by decide, by decide⟩

/-- Counterexample to C6 as stated: the onset getter raises instead of
returning the (empty) list of matching rows for an event name with a
double quote (the literal closes early and the trailing quote is left
unterminated), for a quote-free name ending in a backslash (the backslash
escapes the closing quote), and for a quote-free name containing a raw
newline (the literal cannot span lines). -/
theorem event_getter_error_cases :
    EvData.get_event_onset_time exD "s\"" = QueryOutcome.raises ∧
    EvData.get_event_onset_time exD "a\\" = QueryOutcome.raises ∧
    EvData.get_event_onset_time exD "n\nl" = QueryOutcome.raises := by
  exact ⟨by decide, by decide, by decide⟩

/-- Counterexample to C4 as stated: get_data_by_event raises instead of
returning the (empty) result list for an event name with a double quote,
for a quote-free name ending in a backslash, and for a quote-free name
containing a raw newline. -/
theorem get_data_by_event_error_cases :
    EvData.get_data_by_event exD "e\"v" 1 1 none false = QueryOutcome.raises ∧
    EvData.get_data_by_event exD "b\\" 1 1 none false = QueryOutcome.raises ∧
    EvData.get_data_by_event exD "w\nx" 1 1 none false = QueryOutcome.raises := by
  exact ⟨by decide, by decide, by decide⟩

/-! ## Witnesses -/

/-- Witness for C4: on the concrete recording, the event stim at onset 1 s
with duration 1 s and pre = post = 1 yields exactly one window, spanning
samples 0 and 1. -/
theorem get_data_by_event_spec_witness :
    EvData.get_data_by_event exD "stim" 1 1 none false =
      QueryOutcome.ok [([[10, 20]], none)] :=
  ((get_data_by_event_spec exD "stim" 1 1 none false
      (by decide) (by decide) (by decide) (by decide)).1).trans
    (by norm_num [EvData.get_data, RawData.get_data, EvData.tmin, EvData.tmax, exD,
      exRaw, exEvents, parse_annotation, listMin, listMax, argminAbs, argminAbsAux, npabs])

/-- Witness for C5 at the concrete recording with sorted time axis 0, 1, 2. -/
theorem clamp_full_range_witness :
    exD.mneraw.times ≠ [] ∧
    EvData.get_data exD (some (EvData.tmin exD - 100, EvData.tmax exD + 100)) none false =
      EvData.get_data exD none none false :=
  ⟨by decide, clamp_full_range exD none false (by decide) (by decide)⟩

/-- Witness for C6: the getters on the name stim return the single matching
row's onset, duration and origin time. -/
theorem event_getters_match_witness :
    EvData.get_event_onset_time exD "stim" = QueryOutcome.ok [1] ∧
    EvData.get_event_duration exD "stim" = QueryOutcome.ok [1] ∧
    EvData.get_event_timestamp exD "stim" = QueryOutcome.ok [none] :=
  ⟨((event_getters_match exD "stim"
      (by decide) (by decide) (by decide) (by decide)).1).trans (by decide),
   ((event_getters_match exD "stim"
      (by decide) (by decide) (by decide) (by decide)).2.1).trans (by decide),
   ((event_getters_match exD "stim"
      (by decide) (by decide) (by decide) (by decide)).2.2.1).trans (by decide)⟩

/-- Witness for C7: 9999 is not among the table's keys and its lookup is a
key error. -/
theorem unit_lookup_spec_witness :
    ((9999 : Int) ∉ fiffUnitTable.map Prod.fst) ∧ unit_fiff_to_human 9999 = none :=
  ⟨by decide, unit_lookup_spec.2.2.2 9999 (by decide)⟩

/-- Witness for C8 on three concrete paths, one per dispatch branch. -/
theorem load_dispatch_witness :
    load_from_file "rec.vhdr" = Except.ok Reader.brainvision ∧
    load_from_file "scan.edf" = Except.ok Reader.edf ∧
    load_from_file "notes.txt" =
      Except.error (String.mk ("Unknown file type: ".data ++ splitextExt "notes.txt".data)) :=
  ⟨(load_dispatch "rec.vhdr").1 (by decide),
   (load_dispatch "scan.edf").2.1 (by decide),
   (load_dispatch "notes.txt").2.2 (by decide) (by decide)⟩
